import Mathlib

/-!
# Verification of the dynamic query (DQ) engine of gtk-gnutella

Shallow embedding of `src/core/dq.c` (dynamic querying for an ultrapeer).
Machine integers (`guint32`) are modelled as `ℕ` with an explicit
`% 2^32` wherever the C code can overflow; `guint32` truncating
subtraction is written with the usual `+ 2^32 - ·` trick.  The
floating-point horizon table (`fill_hosts` / `dq_get_horizon`) is
modelled with exact rational arithmetic: over the whole tabulated
domain (degree 1..50, ttl 1..5) the IEEE-double computation of the C
code agrees with the exact rational floor, so the `ℕ`-division model
below is value-for-value faithful.  Real (`gdouble`) arithmetic in
`dq_select_ttl` is modelled by exact `ℚ` arithmetic.
-/

namespace DynQuery

/-! ## Tunable constants of dq.c -/

def DQ_LINGER_TIMEOUT : ℕ := 180000
def DQ_STATUS_TIMEOUT : ℕ := 40000
def DQ_MAX_PENDING : ℕ := 3
def DQ_MAX_HORIZON : ℕ := 500000
def DQ_MAX_TTL : ℕ := 5
def DQ_AVG_ULTRA_NODES : ℕ := 3
def MAX_DEGREE : ℕ := 50

/-- The sentinel node id denoting the local node (`NODE_ID_SELF`). -/
def NODE_ID_SELF : ℕ := 0

/-- 2^32, the modulus of `guint32` arithmetic. -/
def U32 : ℕ := 4294967296

/-! ## Horizon model (`fill_hosts`, `dq_get_horizon`) -/

/-- The pre-computed table of `fill_hosts`:
`hosts i 0 = 1` and `hosts i j = hosts i (j-1) + i^j`,
i.e. `hosts i j = Σ_{k=0..j} i^k`.  Index `i` is `degree - 1`,
index `j` is `ttl - 1`. -/
def hosts (i : ℕ) : ℕ → ℕ
  | 0 => 1
  | j + 1 => hosts i j + i ^ (j + 1)

/-- `dq_get_horizon(degree, ttl)`: clamp the inputs to the tabulated
range, look up `hosts`, and apply the fuzzy factor `0.80^j`
(`(4/5)^j`, truncated toward zero exactly as the `guint32` conversion
of the C code does on the tabulated domain). -/
def dq_get_horizon (degree ttl : ℕ) : ℕ :=
  let i := min degree MAX_DEGREE - 1
  let j := min ttl DQ_MAX_TTL - 1
  hosts i j * 4 ^ j / 5 ^ j

/-- The horizon formula exactly as claim C4 words it (for comparison
with `dq_get_horizon`): `⌊0.80^(ttl-1) · Σ_{i=0..ttl-1} degree^i⌋`
with `degree` clamped to 50 and `ttl` clamped to 5. -/
def horizonClaimC4 (degree ttl : ℕ) : ℕ :=
  let d := min degree MAX_DEGREE
  let t := min ttl DQ_MAX_TTL
  (Finset.range t).sum (fun i => d ^ i) * 4 ^ (t - 1) / 5 ^ (t - 1)

lemma hosts_eq_sum (i j : ℕ) :
    hosts i j = (Finset.range (j + 1)).sum (fun k => i ^ k) := by
  induction j with
  | zero => simp [hosts]
  | succ j ih =>
      rw [hosts, ih, Finset.sum_range_succ (fun k => i ^ k) (j + 1)]

lemma hosts_mono_left {i i' : ℕ} (h : i ≤ i') (j : ℕ) :
    hosts i j ≤ hosts i' j := by
  induction j with
  | zero => simp [hosts]
  | succ j ih =>
      exact Nat.add_le_add ih (Nat.pow_le_pow_left h (j + 1))

/-- C4 — counterexample.  The claim computes the horizon from powers of
`degree`, but `fill_hosts` tabulates powers of `degree - 1`
(its own header comment: `hosts(degree,ttl) = Sum[(degree-1)^i]`).
At degree 3, ttl 2 the code yields `⌊0.8·(1+2)⌋ = 2` while the claim
yields `⌊0.8·(1+3)⌋ = 3`. -/
theorem dq_get_horizon_ne_claimC4 :
    dq_get_horizon 3 2 = 2 ∧ horizonClaimC4 3 2 = 3 ∧
    dq_get_horizon 3 2 ≠ horizonClaimC4 3 2 := by decide

/-- C4 — amended.  For every degree ≥ 1 and ttl ≥ 1,
`dq_get_horizon degree ttl` is the floor of
`0.80^(t-1) · Σ_{i=0..t-1} (d-1)^i` where `d` is the degree clamped to
at most 50 and `t` the ttl clamped to at most 5 (powers of `d - 1`,
not of `d`). -/
theorem dq_get_horizon_eq (degree ttl : ℕ) (hd : 1 ≤ degree) (ht : 1 ≤ ttl) :
    dq_get_horizon degree ttl =
      (Finset.range (min ttl DQ_MAX_TTL)).sum
          (fun i => (min degree MAX_DEGREE - 1) ^ i)
        * 4 ^ (min ttl DQ_MAX_TTL - 1) / 5 ^ (min ttl DQ_MAX_TTL - 1) := by
  have h1 : 1 ≤ min ttl DQ_MAX_TTL := le_min ht (by decide)
  have h2 : min ttl DQ_MAX_TTL - 1 + 1 = min ttl DQ_MAX_TTL :=
    Nat.succ_pred_eq_of_pos h1
  simp only [dq_get_horizon]
  rw [hosts_eq_sum, h2]

/-- Witness for `dq_get_horizon_eq` at degree 3, ttl 2. -/
theorem dq_get_horizon_eq_witness :
    dq_get_horizon 3 2 =
      (Finset.range (min 2 DQ_MAX_TTL)).sum
          (fun i => (min 3 MAX_DEGREE - 1) ^ i)
        * 4 ^ (min 2 DQ_MAX_TTL - 1) / 5 ^ (min 2 DQ_MAX_TTL - 1) :=
  dq_get_horizon_eq 3 2 (by decide) (by decide)

/-- C6 — counterexample.  `dq_get_horizon` is *not* non-decreasing in
the ttl: at degree 1 the table row is constantly 1 (`0^k` vanishes for
`k ≥ 1`), so the fuzzy factor makes the horizon drop to 0 at ttl 2. -/
theorem dq_get_horizon_not_mono_ttl :
    dq_get_horizon 1 1 = 1 ∧ dq_get_horizon 1 2 = 0 ∧
    ¬ (dq_get_horizon 1 1 ≤ dq_get_horizon 1 2) := by decide

/-- Monotonicity of the tabulated horizon in the ttl index, away from
degree 1 (table index `i ≥ 1`), checked over the whole finite table. -/
lemma horizon_table_mono_ttl :
    ∀ i < 50, 1 ≤ i → ∀ j < 5, ∀ j' < 5, j ≤ j' →
      hosts i j * 4 ^ j / 5 ^ j ≤ hosts i j' * 4 ^ j' / 5 ^ j' := by decide

/-- C6 — amended.  Over the tabulated domain, `dq_get_horizon d t` is
non-decreasing in `d` for fixed `t`, and `dq_get_horizon d 1 = 1` for
every `d ≥ 1`; it is non-decreasing in `t` only for `d ≥ 2`
(at `d = 1` it drops from 1 to 0 between `t = 1` and `t = 2`). -/
theorem dq_get_horizon_mono :
    (∀ d d' t : ℕ, d ≤ d' → dq_get_horizon d t ≤ dq_get_horizon d' t) ∧
    (∀ d : ℕ, 1 ≤ d → dq_get_horizon d 1 = 1) ∧
    (∀ d t t' : ℕ, 2 ≤ d → 1 ≤ t → t ≤ t' →
      dq_get_horizon d t ≤ dq_get_horizon d t') := by
  refine ⟨?_, ?_, ?_⟩
  · intro d d' t h
    unfold dq_get_horizon
    have hi : min d MAX_DEGREE - 1 ≤ min d' MAX_DEGREE - 1 := by
      have := min_le_min_right MAX_DEGREE h
      omega
    exact Nat.div_le_div_right
      (Nat.mul_le_mul_right _ (hosts_mono_left hi _))
  · intro d hd
    simp [dq_get_horizon, hosts, DQ_MAX_TTL]
  · intro d t t' hd ht htt
    unfold dq_get_horizon
    apply horizon_table_mono_ttl
    · have : min d MAX_DEGREE ≤ 50 := min_le_right _ _
      unfold MAX_DEGREE at *
      omega
    · have : 2 ≤ min d MAX_DEGREE := le_min hd (by decide)
      omega
    · have : min t DQ_MAX_TTL ≤ 5 := min_le_right _ _
      unfold DQ_MAX_TTL at *
      omega
    · have : min t' DQ_MAX_TTL ≤ 5 := min_le_right _ _
      unfold DQ_MAX_TTL at *
      omega
    · have h1 : 1 ≤ min t DQ_MAX_TTL := le_min ht (by decide)
      have h2 : min t DQ_MAX_TTL ≤ min t' DQ_MAX_TTL :=
        min_le_min_right _ htt
      omega

/-- Witness for `dq_get_horizon_mono`. -/
theorem dq_get_horizon_mono_witness :
    dq_get_horizon 2 3 ≤ dq_get_horizon 7 3 ∧
    dq_get_horizon 7 1 = 1 ∧
    dq_get_horizon 2 2 ≤ dq_get_horizon 2 4 :=
  ⟨dq_get_horizon_mono.1 2 7 3 (by decide),
   dq_get_horizon_mono.2.1 7 (by decide),
   dq_get_horizon_mono.2.2 2 2 4 (by decide) (by decide) (by decide)⟩

/-! ## The dynamic query record (`struct dquery`)

Flags (`DQ_F_*`) are modelled as individual booleans; the two bits of
the query speed field (`query_flags`) that `dq_count_results` inspects
(`QUERY_SPEED_FIREWALLED`, `QUERY_SPEED_FW_TO_FW`) likewise.  The two
callout-queue events are `Option ℕ`: `some d` is an armed event with
delay `d` ms, `none` an absent/fired event.  `searchKept` is the value
the external local-search store would report
(`search_get_kept_results_by_handle`), carried as an oracle field so
that `dq_kept_results` stays a function.  The debug level `dq_debug`
is taken to be 0, so debug-only code (including the `dq_debug > 19`
block of `dq_count_results`) is omitted. -/

structure Dquery where
  nodeId : ℕ
  qid : ℕ
  ttl : ℕ
  horizon : ℕ
  upSent : ℕ
  lastStatus : ℕ
  pending : ℕ
  maxResults : ℕ
  finResults : ℕ
  oobResults : ℕ
  results : ℕ
  lingerResults : ℕ
  newResults : ℕ
  keptResults : ℕ
  resultTimeout : ℕ
  statTimeouts : ℕ
  queried : Finset ℕ
  resultsEv : Option ℕ
  expireEv : Option ℕ
  searchKept : ℕ
  fLinger : Bool
  fLeafGuided : Bool
  fWaiting : Bool
  fGotGuidance : Bool
  fUsrCancelled : Bool
  fRoutingHits : Bool
  qfFirewalled : Bool
  qfFw2fw : Bool
deriving DecidableEq

/-- `dq_kept_results`, including its side effect: for a local query it
refreshes `kept_results` from the search store; for a remote one with
guidance it reports `kept_results / DQ_AVG_ULTRA_NODES + new_results`
(guint32 arithmetic), otherwise plain `results`.  Returns the possibly
updated record together with the computed value. -/
def dq_kept_results_upd (dq : Dquery) : Dquery × ℕ :=
  if dq.nodeId = NODE_ID_SELF then
    ({ dq with keptResults := dq.searchKept }, dq.searchKept)
  else if dq.fGotGuidance then
    (dq, (dq.keptResults / DQ_AVG_ULTRA_NODES + dq.newResults) % U32)
  else
    (dq, dq.results)

/-- The value computed by `dq_kept_results`. -/
def dq_kept_results (dq : Dquery) : ℕ := (dq_kept_results_upd dq).2

/-! ## Iteration decision (`dq_send_next`, head section)

The decision taken by `dq_send_next` when the results event fires,
up to and including the `DQ_MAX_PENDING` check (lines 1264-1351):
either the query is terminated, or the results event is re-armed for
`result_timeout` ms without dispatching (`wait`), or the routine
proceeds to candidate selection. -/

inductive SendNextDecision where
  | terminate : SendNextDecision
  | wait : ℕ → SendNextDecision
  | proceed : SendNextDecision
deriving DecidableEq

/-- The decision prefix of `dq_send_next`.  `isUltra` stands for
`current_peermode == NODE_P_ULTRA`; `maxConnections` and
`normalConnections` are the corresponding gnet properties (guint32). -/
def dq_send_next_decision (isUltra : Bool) (maxConnections normalConnections : ℕ)
    (dq : Dquery) : SendNextDecision :=
  if isUltra = false then .terminate
  else if dq.horizon ≥ DQ_MAX_HORIZON ∨ dq_kept_results dq ≥ dq.maxResults then
    .terminate
  else if (dq.results + dq.oobResults) % U32 > dq.finResults then .terminate
  else if dq.upSent ≥ (maxConnections + U32 - normalConnections) % U32 then
    .terminate
  else if dq.pending ≥ DQ_MAX_PENDING then .wait dq.resultTimeout
  else .proceed

/-- Concrete state for the C1 counterexample: `results + oob_results`
equals `fin_results` exactly, every other termination condition is
false. -/
def dqC1 : Dquery where
  nodeId := 7
  qid := 0
  ttl := 3
  horizon := 100
  upSent := 0
  lastStatus := 0
  pending := 0
  maxResults := 1000
  finResults := 50
  oobResults := 20
  results := 30
  lingerResults := 0
  newResults := 0
  keptResults := 0
  resultTimeout := 3700
  statTimeouts := 0
  queried := ∅
  resultsEv := none
  expireEv := none
  searchKept := 0
  fLinger := false
  fLeafGuided := false
  fWaiting := false
  fGotGuidance := false
  fUsrCancelled := false
  fRoutingHits := true
  qfFirewalled := false
  qfFw2fw := false

/-- C1 — counterexample.  The claim terminates when
`results + oob_results ≥ fin_results`, but the code only terminates on
the strict inequality `results + oob_results > fin_results`
(line 1314): at equality the query keeps iterating. -/
theorem dq_send_next_decision_ne_claimC1 :
    dqC1.results + dqC1.oobResults ≥ dqC1.finResults ∧
    dq_send_next_decision true 10 0 dqC1 ≠ .terminate := by decide

/-- C1 — amended.  When the results event fires and the query iterates,
the decision prefix of `dq_send_next` terminates the query exactly when
one of these holds, checked in this order: the host is no longer an
ultrapeer; `horizon ≥ 500000`; kept-results estimate `≥ max_results`;
`results + oob_results > fin_results` (strictly); `up_sent` has reached
`max_connections - normal_connections`.  If none holds and
`pending ≥ 3`, it re-arms the results event for `result_timeout` and
yields; otherwise it proceeds to dispatching. -/
theorem dq_send_next_decision_characterization
    (u : Bool) (mc nc : ℕ) (dq : Dquery)
    (hnc : nc ≤ mc) (hmc : mc < U32)
    (hsum : dq.results + dq.oobResults < U32) :
    (dq_send_next_decision u mc nc dq = .terminate ↔
      (u = false ∨ dq.horizon ≥ DQ_MAX_HORIZON ∨
        dq_kept_results dq ≥ dq.maxResults ∨
        dq.results + dq.oobResults > dq.finResults ∨
        dq.upSent ≥ mc - nc)) ∧
    (dq_send_next_decision u mc nc dq = .wait dq.resultTimeout ↔
      (¬ (u = false ∨ dq.horizon ≥ DQ_MAX_HORIZON ∨
          dq_kept_results dq ≥ dq.maxResults ∨
          dq.results + dq.oobResults > dq.finResults ∨
          dq.upSent ≥ mc - nc) ∧ dq.pending ≥ DQ_MAX_PENDING)) ∧
    (dq_send_next_decision u mc nc dq = .proceed ↔
      (¬ (u = false ∨ dq.horizon ≥ DQ_MAX_HORIZON ∨
          dq_kept_results dq ≥ dq.maxResults ∨
          dq.results + dq.oobResults > dq.finResults ∨
          dq.upSent ≥ mc - nc) ∧ dq.pending < DQ_MAX_PENDING)) := by
  have hsub : (mc + U32 - nc) % U32 = mc - nc := by
    have h1 : mc + U32 - nc = U32 + (mc - nc) := by omega
    rw [h1, Nat.add_mod_left, Nat.mod_eq_of_lt (by omega)]
  have hsum' : (dq.results + dq.oobResults) % U32 = dq.results + dq.oobResults :=
    Nat.mod_eq_of_lt hsum
  unfold dq_send_next_decision
  rw [hsub, hsum']
  by_cases h0 : u = false <;>
    by_cases h1 : dq.horizon ≥ DQ_MAX_HORIZON ∨ dq_kept_results dq ≥ dq.maxResults <;>
      by_cases h2 : dq.results + dq.oobResults > dq.finResults <;>
        by_cases h3 : dq.upSent ≥ mc - nc <;>
          by_cases h4 : dq.pending ≥ DQ_MAX_PENDING <;>
            simp [h0, h1, h2, h3, h4] <;> omega

/-- Witness for `dq_send_next_decision_characterization`: at `dqC1`
none of the termination conditions of the amended claim holds and
`pending < 3`, so the decision is `proceed`. -/
theorem dq_send_next_decision_characterization_witness :
    dq_send_next_decision true 10 0 dqC1 = .proceed :=
  ((dq_send_next_decision_characterization true 10 0 dqC1
      (by decide) (by decide) (by decide)).2.2).mpr (by decide)

/-! ## Send bookkeeper (`struct pmsg_info`, `dq_alive`, `dq_pmsg_free`)

The all-queries index `dqueries` maps a record address to its current
occupant; `dq_pmsg_free` reads the captured `(dq, qid)` pair of the
send metadata, checks liveness, and updates the record in place. -/

structure PmsgInfo where
  nodeId : ℕ
  dqAddr : ℕ
  qid : ℕ
  degree : ℕ
  ttl : ℕ
deriving DecidableEq

structure Engine where
  dqueries : ℕ → Option Dquery

/-- `dq_alive`: the query record is still in the all-queries index and
its query id matches the captured one (guards address reuse). -/
def dq_alive (eng : Engine) (dqAddr qid : ℕ) : Bool :=
  match eng.dqueries dqAddr with
  | none => false
  | some dq => dq.qid == qid

/-- `dq_pmsg_free`: free hook invoked by the message layer.
`wasSent` is `pmsg_was_sent(mb)`.  A stale `(query, generation)` pair
skips to cleanup; otherwise `pending` is decremented and either the
drop path (remove target from `queried`, possibly reschedule the
results event to 1 ms) or the sent path (`up_sent++`,
`horizon += dq_get_horizon(degree, ttl)`) runs. -/
def dq_pmsg_free (eng : Engine) (pmi : PmsgInfo) (wasSent : Bool) : Engine :=
  match eng.dqueries pmi.dqAddr with
  | none => eng
  | some dq =>
    if dq.qid ≠ pmi.qid then eng
    else
      let dq1 := { dq with pending := dq.pending - 1 }
      let dq2 :=
        if wasSent = false then
          let dqd := { dq1 with queried := dq1.queried.erase pmi.nodeId }
          if dqd.pending = 0 ∧ dqd.resultsEv.isSome then
            { dqd with resultsEv := some 1 }
          else dqd
        else
          { dq1 with
              horizon := (dq1.horizon + dq_get_horizon pmi.degree pmi.ttl) % U32,
              upSent := (dq1.upSent + 1) % U32 }
      ⟨fun a => if a = pmi.dqAddr then some dq2 else eng.dqueries a⟩

/-- C2 — confirmed.  If the free hook finds the owning query alive with
matching generation id, `pending` drops by one in every case; on a drop
the target leaves the queried set and, when `pending` reaches zero
while a results event is armed, that event is rescheduled to 1 ms; on a
send `up_sent` rises by one and `dq_get_horizon(degree, ttl)` of the
target is added to the horizon estimate. -/
theorem dq_pmsg_free_alive (eng : Engine) (pmi : PmsgInfo) (ws : Bool)
    (dq : Dquery) (hdq : eng.dqueries pmi.dqAddr = some dq)
    (hqid : dq.qid = pmi.qid) (hp : 1 ≤ dq.pending)
    (hh : dq.horizon + dq_get_horizon pmi.degree pmi.ttl < U32)
    (hu : dq.upSent + 1 < U32) :
    ∃ dq', (dq_pmsg_free eng pmi ws).dqueries pmi.dqAddr = some dq' ∧
      dq'.pending = dq.pending - 1 ∧
      (ws = false →
        dq'.queried = dq.queried.erase pmi.nodeId ∧
        (dq.pending - 1 = 0 → dq.resultsEv.isSome → dq'.resultsEv = some 1)) ∧
      (ws = true →
        dq'.upSent = dq.upSent + 1 ∧
        dq'.horizon = dq.horizon + dq_get_horizon pmi.degree pmi.ttl) := by
  cases ws with
  | false =>
      unfold dq_pmsg_free
      rw [hdq]
      simp only [hqid, ne_eq, not_true_eq_false, if_false, if_true,
        Bool.true_eq_false, Bool.false_eq_true]
      by_cases hz : dq.pending - 1 = 0 ∧ (Option.isSome dq.resultsEv) = true
      · rw [if_pos hz]
        exact ⟨_, rfl, rfl, fun _ => ⟨rfl, fun _ _ => rfl⟩, nofun⟩
      · rw [if_neg hz]
        exact ⟨_, rfl, rfl, fun _ => ⟨rfl, fun h1 h2 => absurd ⟨h1, h2⟩ hz⟩,
          nofun⟩
  | true =>
      unfold dq_pmsg_free
      rw [hdq]
      simp only [hqid, ne_eq, not_true_eq_false, if_false, if_true,
        Bool.true_eq_false, Bool.false_eq_true]
      exact ⟨_, rfl, rfl, nofun,
        fun _ => ⟨Nat.mod_eq_of_lt hu, Nat.mod_eq_of_lt hh⟩⟩

/-- A concrete engine holding one live query (used by the witnesses). -/
def dqLive : Dquery :=
  { dqC1 with qid := 4, pending := 1, queried := {11, 12},
              resultsEv := some 3700 }

def engLive : Engine := ⟨fun a => if a = 5 then some dqLive else none⟩

/-- Witness for `dq_pmsg_free_alive`: a dropped message on the live
query removes node 11 from the queried set and reschedules the armed
results event to 1 ms. -/
theorem dq_pmsg_free_alive_witness :
    ∃ dq', (dq_pmsg_free engLive ⟨11, 5, 4, 6, 2⟩ false).dqueries 5 = some dq' ∧
      dq'.pending = dqLive.pending - 1 ∧
      (false = false →
        dq'.queried = dqLive.queried.erase 11 ∧
        (dqLive.pending - 1 = 0 → dqLive.resultsEv.isSome →
          dq'.resultsEv = some 1)) ∧
      (false = true →
        dq'.upSent = dqLive.upSent + 1 ∧
        dq'.horizon = dqLive.horizon + dq_get_horizon 6 2) :=
  dq_pmsg_free_alive engLive ⟨11, 5, 4, 6, 2⟩ false dqLive
    (by decide) (by decide) (by decide) (by decide) (by decide)

/-- C3 — confirmed.  A free-hook invocation whose captured
`(query, generation)` pair is stale — the address is no longer in the
all-queries index, or the occupant's query id differs — changes no
query state at all: the engine is returned unchanged. -/
theorem dq_pmsg_free_stale (eng : Engine) (pmi : PmsgInfo) (ws : Bool)
    (hstale : dq_alive eng pmi.dqAddr pmi.qid = false) :
    dq_pmsg_free eng pmi ws = eng := by
  unfold dq_alive at hstale
  unfold dq_pmsg_free
  cases h : eng.dqueries pmi.dqAddr with
  | none => rfl
  | some dq =>
      rw [h] at hstale
      simp only [beq_eq_false_iff_ne, ne_eq] at hstale
      simp [hstale]

/-- Witness for `dq_pmsg_free_stale`: metadata carrying generation 9
while the record at address 5 holds generation 4. -/
theorem dq_pmsg_free_stale_witness :
    dq_pmsg_free engLive ⟨11, 5, 9, 6, 2⟩ true = engLive :=
  dq_pmsg_free_stale engLive ⟨11, 5, 9, 6, 2⟩ true (by decide)

/-! ## TTL selection (`dq_select_ttl`)

`gdouble` arithmetic is modelled by exact `ℚ`.  Note that
`dq->results / MAX(dq->horizon, 1)` in the C source divides two
`guint32` values, hence is an *integer* division; only the subsequent
steps are floating point.  The C constant `0.000001` is modelled as
`1/1000000`; it only separates a zero `results_per_up` from a nonzero
one, so the double's representation error is immaterial. -/

/-- `hosts_to_reach_via_node` as computed by `dq_select_ttl`
(lines 349-356): `results := dq_kept_results(dq)`,
`needed := max_results - results`,
`results_per_up := results_field / max(horizon, 1)` (integer division),
`hosts_to_reach := needed / max(results_per_up, 1e-6)`, divided by the
number of remaining connections. -/
def selectHtrv (dq : Dquery) (connections : ℕ) : ℚ :=
  let results : ℕ := dq_kept_results dq
  let needed : ℕ := dq.maxResults - results
  let results_per_up : ℕ := dq.results / max dq.horizon 1
  let hosts_to_reach : ℚ := (needed : ℚ) / max (results_per_up : ℚ) (1 / 1000000)
  hosts_to_reach / (connections : ℚ)

/-- The downward loop of `dq_select_ttl` (lines 363-366): starting from
`min(node->max_ttl, dq->ttl)`, decrement until
`dq_get_horizon(degree, ttl) ≤ hosts_to_reach_via_node`; 0 when no ttl
qualifies. -/
def selectLoop (degree : ℕ) (htrv : ℚ) : ℕ → ℕ
  | 0 => 0
  | t + 1 =>
      if (dq_get_horizon degree (t + 1) : ℚ) ≤ htrv then t + 1
      else selectLoop degree htrv t

/-- `dq_select_ttl`: the loop result, with the `ttl == 0` fallback to
`min(node->max_ttl, dq->ttl)`. -/
def dq_select_ttl (dq : Dquery) (maxTtl degree connections : ℕ) : ℕ :=
  let t := selectLoop degree (selectHtrv dq connections) (min maxTtl dq.ttl)
  if t = 0 then min maxTtl dq.ttl else t

lemma selectLoop_spec (degree : ℕ) (htrv : ℚ) (n : ℕ) :
    (selectLoop degree htrv n = 0 ∧
      ∀ t, 1 ≤ t → t ≤ n → ¬ ((dq_get_horizon degree t : ℚ) ≤ htrv)) ∨
    (1 ≤ selectLoop degree htrv n ∧ selectLoop degree htrv n ≤ n ∧
      ((dq_get_horizon degree (selectLoop degree htrv n) : ℚ) ≤ htrv) ∧
      ∀ t, t ≤ n → ((dq_get_horizon degree t : ℚ) ≤ htrv) →
        t ≤ selectLoop degree htrv n) := by
  induction n with
  | zero =>
      left
      exact ⟨rfl, fun t h1 h2 => absurd (le_trans h1 h2) (by omega)⟩
  | succ n ih =>
      unfold selectLoop
      by_cases h : (dq_get_horizon degree (n + 1) : ℚ) ≤ htrv
      · rw [if_pos h]
        exact Or.inr ⟨by omega, le_refl _, h, fun t ht _ => ht⟩
      · rw [if_neg h]
        rcases ih with ⟨h0, hall⟩ | ⟨h1, h2, h3, h4⟩
        · left
          refine ⟨h0, fun t ht1 ht2 hq => ?_⟩
          by_cases he : t = n + 1
          · exact h (he ▸ hq)
          · exact hall t ht1 (by omega) hq
        · right
          refine ⟨h1, le_trans h2 (Nat.le_succ n), h3, fun t ht hq => ?_⟩
          by_cases he : t = n + 1
          · exact absurd (he ▸ hq) h
          · exact h4 t (by omega) hq

/-- Concrete state for claim C5: a fresh remote query (no results yet),
`hosts_to_reach_via_node` is huge, so every ttl qualifies. -/
def dqC5 : Dquery :=
  { dqC1 with horizon := 0, oobResults := 0, results := 0, maxResults := 50 }

/-- C5 — counterexample.  The claim says the *smallest* qualifying TTL
is returned, but the loop of `dq_select_ttl` scans downward from
`min(node->max_ttl, dq->ttl)` and stops at the first hit, returning the
*largest* qualifying TTL: here TTL 1 qualifies
(`horizon(10,1) = 1 ≤ hosts_to_reach_via_node`), yet 3 is returned. -/
theorem dq_select_ttl_ne_claimC5 :
    dq_select_ttl dqC5 3 10 1 = 3 ∧
    (dq_get_horizon 10 1 : ℚ) ≤ selectHtrv dqC5 1 ∧ (1 : ℕ) < 3 := by
  have hsel : selectHtrv dqC5 1 = 50000000 := by
    have e1 : dqC5.maxResults - dq_kept_results dqC5 = 50 := by decide
    have e2 : dqC5.results / max dqC5.horizon 1 = 0 := by decide
    show ((dqC5.maxResults - dq_kept_results dqC5 : ℕ) : ℚ) /
        max ((dqC5.results / max dqC5.horizon 1 : ℕ) : ℚ) (1 / 1000000) /
        ((1 : ℕ) : ℚ) = 50000000
    rw [e1, e2]
    rw [show max (((0 : ℕ)) : ℚ) (1 / 1000000) = 1 / 1000000 by
      rw [Nat.cast_zero]; exact max_eq_right (by norm_num)]
    norm_num
  have h3 : dq_get_horizon 10 3 = 58 := by decide
  have h1 : dq_get_horizon 10 1 = 1 := by decide
  have hQ3 : (dq_get_horizon 10 3 : ℚ) ≤ selectHtrv dqC5 1 := by
    rw [hsel, h3]; norm_num
  refine ⟨?_, by rw [hsel, h1]; norm_num, by norm_num⟩
  rcases selectLoop_spec 10 (selectHtrv dqC5 1) 3 with ⟨h0, hall⟩ | ⟨ha, hb, hc, hd⟩
  · exact absurd hQ3 (hall 3 (by norm_num) (le_refl 3))
  · have h3le : 3 ≤ selectLoop 10 (selectHtrv dqC5 1) 3 := hd 3 (le_refl 3) hQ3
    have hr : selectLoop 10 (selectHtrv dqC5 1) 3 = 3 := le_antisymm hb h3le
    show (if selectLoop 10 (selectHtrv dqC5 1) (min 3 dqC5.ttl) = 0 then
        min 3 dqC5.ttl else selectLoop 10 (selectHtrv dqC5 1) (min 3 dqC5.ttl)) = 3
    rw [show min 3 dqC5.ttl = 3 from by decide, hr]
    norm_num

/-- C5 — amended.  For a query whose kept-results estimate is below
`max_results` and positive remaining connections,
`dq_select_ttl` returns the *largest* TTL `≤ min(node.max_ttl, dq.ttl)`
whose `dq_get_horizon(degree, ttl)` does not exceed
`hosts_to_reach_via_node` (computed as in `selectHtrv`); if no TTL
qualifies it returns `min(node.max_ttl, dq.ttl)`; the result always
lies between 1 and `min(node.max_ttl, dq.ttl)`. -/
theorem dq_select_ttl_spec (dq : Dquery) (maxTtl degree connections : ℕ)
    (hkept : dq_kept_results dq < dq.maxResults) (hconn : 0 < connections)
    (hmt : 1 ≤ maxTtl) (hqt : 1 ≤ dq.ttl) :
    (1 ≤ dq_select_ttl dq maxTtl degree connections ∧
      dq_select_ttl dq maxTtl degree connections ≤ min maxTtl dq.ttl) ∧
    (∀ t, 1 ≤ t → t ≤ min maxTtl dq.ttl →
      ((dq_get_horizon degree t : ℚ) ≤ selectHtrv dq connections) →
      (((dq_get_horizon degree
            (dq_select_ttl dq maxTtl degree connections) : ℚ) ≤
          selectHtrv dq connections) ∧
        ∀ u, u ≤ min maxTtl dq.ttl →
          ((dq_get_horizon degree u : ℚ) ≤ selectHtrv dq connections) →
          u ≤ dq_select_ttl dq maxTtl degree connections)) ∧
    ((∀ t, 1 ≤ t → t ≤ min maxTtl dq.ttl →
        ¬ ((dq_get_horizon degree t : ℚ) ≤ selectHtrv dq connections)) →
      dq_select_ttl dq maxTtl degree connections = min maxTtl dq.ttl) := by
  have hM : 1 ≤ min maxTtl dq.ttl := le_min hmt hqt
  unfold dq_select_ttl
  rcases selectLoop_spec degree (selectHtrv dq connections) (min maxTtl dq.ttl)
    with ⟨h0, hall⟩ | ⟨h1, h2, h3, h4⟩
  · rw [h0]
    simp only [if_pos rfl]
    exact ⟨⟨hM, le_refl _⟩,
      fun t ht1 ht2 hq => absurd hq (hall t ht1 ht2),
      fun _ => rfl⟩
  · rw [if_neg (by omega)]
    exact ⟨⟨h1, h2⟩,
      fun t ht1 ht2 hq => ⟨h3, h4⟩,
      fun hnone => absurd h3 (hnone _ h1 h2)⟩

/-- Witness for `dq_select_ttl_spec` at the concrete query `dqC5`. -/
theorem dq_select_ttl_spec_witness :
    1 ≤ dq_select_ttl dqC5 3 10 1 ∧ dq_select_ttl dqC5 3 10 1 ≤ min 3 dqC5.ttl :=
  (dq_select_ttl_spec dqC5 3 10 1 (by decide) (by decide) (by decide)
    (by decide)).1

/-! ## Results-wanted query (`dq_get_results_wanted`) -/

/-- `dq_get_results_wanted`, modelled on the result of the `by_muid`
lookup: `none` when no query is registered for the MUID, otherwise the
amount of results still wanted. -/
def dq_get_results_wanted (lookup : Option Dquery) : Option ℕ :=
  match lookup with
  | none => none
  | some dq =>
    if dq.fUsrCancelled = true then some 0
    else
      let p := dq_kept_results_upd dq
      if p.2 < p.1.maxResults then some (p.1.maxResults - p.2)
      else if p.1.fGotGuidance = true ∧ p.1.keptResults < p.1.finResults then
        some 1
      else some 0

lemma dq_kept_results_upd_frame (dq : Dquery) :
    (dq_kept_results_upd dq).1.maxResults = dq.maxResults ∧
    (dq_kept_results_upd dq).1.finResults = dq.finResults ∧
    (dq_kept_results_upd dq).1.fGotGuidance = dq.fGotGuidance ∧
    (dq_kept_results_upd dq).1.fUsrCancelled = dq.fUsrCancelled := by
  unfold dq_kept_results_upd
  by_cases h : dq.nodeId = NODE_ID_SELF
  · simp [h]
  · by_cases hg : dq.fGotGuidance = true <;> simp [h, hg]

/-- C7 — confirmed.  `dq_get_results_wanted` reports absence for an
unregistered MUID; `0` whenever the query is user-cancelled; otherwise
`max_results - kept` when the kept-results estimate `kept`
(`dq_kept_results`) is below `max_results`; otherwise `1` when guidance
was received and the raw `kept_results` field is below `fin_results`;
otherwise `0`. -/
theorem dq_get_results_wanted_spec (dq : Dquery) :
    (dq_get_results_wanted none = none) ∧
    (dq.fUsrCancelled = true → dq_get_results_wanted (some dq) = some 0) ∧
    (dq.fUsrCancelled = false → dq_kept_results dq < dq.maxResults →
      dq_get_results_wanted (some dq) =
        some (dq.maxResults - dq_kept_results dq)) ∧
    (dq.fUsrCancelled = false → dq.maxResults ≤ dq_kept_results dq →
      dq.fGotGuidance = true →
      (dq_kept_results_upd dq).1.keptResults < dq.finResults →
      dq_get_results_wanted (some dq) = some 1) ∧
    (dq.fUsrCancelled = false → dq.maxResults ≤ dq_kept_results dq →
      ¬ (dq.fGotGuidance = true ∧
          (dq_kept_results_upd dq).1.keptResults < dq.finResults) →
      dq_get_results_wanted (some dq) = some 0) := by
  obtain ⟨hmax, hfin, hgg, _⟩ := dq_kept_results_upd_frame dq
  have hkv : (dq_kept_results_upd dq).2 = dq_kept_results dq := rfl
  refine ⟨rfl, ?_, ?_, ?_, ?_⟩
  · intro hc
    simp [dq_get_results_wanted, hc]
  · intro hc hlt
    simp [dq_get_results_wanted, hc, hkv, hmax, hlt]
  · intro hc hge hg hfinlt
    have hnlt : ¬ ((dq_kept_results_upd dq).2 <
        (dq_kept_results_upd dq).1.maxResults) := by
      rw [hkv, hmax]; omega
    simp [dq_get_results_wanted, hc, hnlt, hgg, hg, hfin, hfinlt]
  · intro hc hge hno
    have hnlt : ¬ ((dq_kept_results_upd dq).2 <
        (dq_kept_results_upd dq).1.maxResults) := by
      rw [hkv, hmax]; omega
    have hno' : ¬ ((dq_kept_results_upd dq).1.fGotGuidance = true ∧
        (dq_kept_results_upd dq).1.keptResults <
          (dq_kept_results_upd dq).1.finResults) := by
      rw [hgg, hfin]; exact hno
    simp [dq_get_results_wanted, hc, hnlt, hno']

/-- Concrete state for the C7 witness: remote query with guidance,
`kept_results = 50`, `new_results = 0`, so the estimate is
`50/3 = 16 < 50` and 34 results are still wanted. -/
def dqC7 : Dquery :=
  { dqC1 with maxResults := 50, finResults := 1000, keptResults := 50,
              fGotGuidance := true }

/-- Witness for `dq_get_results_wanted_spec` at `dqC7`. -/
theorem dq_get_results_wanted_spec_witness :
    dq_get_results_wanted (some dqC7) =
      some (dqC7.maxResults - dq_kept_results dqC7) :=
  (dq_get_results_wanted_spec dqC7).2.2.1 (by decide) (by decide)

/-! ## Hit / OOB accounting (`dq_count_results`, `dq_oob_results_got`)

Both routines start with a `by_muid` lookup; they are modelled on the
looked-up record.  `stFirewall`/`stFw2fw` are the `ST_FIREWALL` and
`ST_FW2FW` bits of the result-set status, `dq.qfFirewalled`/`dq.qfFw2fw`
the `QUERY_SPEED_FIREWALLED` and `QUERY_SPEED_FW_TO_FW` bits of the
query speed field. -/

/-- `dq_count_results` (lines 1857-1942), given the record found for
the MUID: the firewalled-to-firewalled filter applies only to non-OOB
hits; a lingering query accounts into `linger_results`, an OOB
indication into `oob_results`, a direct hit into `results` and
`new_results`.  The returned boolean tells the caller whether to
forward (resp. claim): `false` iff filtered or user-cancelled. -/
def dq_count_results (dq : Dquery) (count : ℕ) (stFirewall stFw2fw : Bool)
    (oob : Bool) : Dquery × Bool :=
  if oob = false ∧
      ((stFirewall = true ∧ dq.qfFirewalled = true ∧ dq.qfFw2fw = false) ∨
        (stFirewall = true ∧ stFw2fw = false ∧ dq.qfFirewalled = true)) then
    (dq, false)
  else
    let dq1 :=
      if dq.fLinger = true then
        { dq with lingerResults := (dq.lingerResults + count) % U32 }
      else if oob = true then
        { dq with oobResults := (dq.oobResults + count) % U32 }
      else
        { dq with results := (dq.results + count) % U32,
                  newResults := (dq.newResults + count) % U32 }
    (dq1, !dq1.fUsrCancelled)

/-- `dq_oob_results_got` (lines 1982-2004), given the record found for
the MUID: claimed OOB results are deducted from `oob_results`,
saturating at zero. -/
def dq_oob_results_got (dq : Dquery) (count : ℕ) : Dquery :=
  if dq.oobResults > count then
    { dq with oobResults := dq.oobResults - count }
  else
    { dq with oobResults := 0 }

/-- Concrete state for the C8 counterexample: a *lingering* query with
5 unclaimed OOB results. -/
def dqC8 : Dquery := { dqC1 with fLinger := true, oobResults := 5 }

/-- C8 — counterexample.  For a lingering query the OOB indication is
accounted into `linger_results`, not `oob_results`, so the subsequent
claim of the same `count` decrements `oob_results` below its initial
value: from 5 to 2 with `count = 3`. -/
theorem oob_roundtrip_ne_claimC8 :
    (dq_oob_results_got (dq_count_results dqC8 3 false false true).1 3).oobResults
      = 2 ∧
    dqC8.oobResults = 5 ∧
    (dq_oob_results_got (dq_count_results dqC8 3 false false true).1 3).oobResults
      ≠ dqC8.oobResults := by decide

/-- C8 — amended.  For every *non-lingering* query and `count > 0`,
claiming directly after the indication restores `oob_results` to its
prior value; and a claim on its own sets `oob_results` to
`oob_results - count` saturating at zero (truncated subtraction). -/
theorem oob_roundtrip (dq : Dquery) (c : ℕ) (sf s2 : Bool) (hc : 0 < c)
    (hl : dq.fLinger = false) (hov : dq.oobResults + c < U32) :
    (dq_oob_results_got (dq_count_results dq c sf s2 true).1 c).oobResults
      = dq.oobResults ∧
    (∀ (dq2 : Dquery) (c2 : ℕ),
      (dq_oob_results_got dq2 c2).oobResults = dq2.oobResults - c2) := by
  constructor
  · have hind : (dq_count_results dq c sf s2 true).1.oobResults =
        dq.oobResults + c := by
      unfold dq_count_results
      rw [if_neg (by simp)]
      rw [if_neg (by simp [hl])]
      rw [if_pos rfl]
      exact Nat.mod_eq_of_lt hov
    unfold dq_oob_results_got
    by_cases h : (dq_count_results dq c sf s2 true).1.oobResults > c
    · rw [if_pos h]
      show (dq_count_results dq c sf s2 true).1.oobResults - c = dq.oobResults
      omega
    · rw [if_neg h]
      show 0 = dq.oobResults
      omega
  · intro dq2 c2
    unfold dq_oob_results_got
    by_cases h : dq2.oobResults > c2
    · rw [if_pos h]
    · rw [if_neg h]
      show 0 = dq2.oobResults - c2
      omega

/-- Witness for `oob_roundtrip` at a live (non-lingering) query. -/
theorem oob_roundtrip_witness :
    (dq_oob_results_got (dq_count_results dqC1 3 false false true).1 3).oobResults
      = dqC1.oobResults :=
  (oob_roundtrip dqC1 3 false false (by decide) (by decide) (by decide)).1

/-! ## Guidance timer (`dq_results_expired`, lines 1097-1105)

Modelled from the spec: `alive_get_roundtrip_ms` lives in
`src/core/alive.c`, outside the sources under verification; per the
spec (§6, Alive pings: `rtt(node) → (avg_ms, last_ms)`) it reports the
round-trip average and last value in milliseconds.  The callout queue
takes delays in milliseconds (dq.c's own constant comments:
`DQ_MAX_LIFETIME 600000` = "10 minutes, in ms",
`DQ_STATUS_TIMEOUT 40000` = "40 s, in ms"). -/

/-- The timer value armed by `dq_results_expired` after sending a
guidance request: `timeout = (avg + last) / 2000` (the code's comment
says "an average, converted to seconds"), then
`timeout = MAX(timeout, DQ_STATUS_TIMEOUT)`, and the result is passed
to `cq_insert` as a *millisecond* delay. -/
def guidanceTimeout (avg last : ℕ) : ℕ :=
  max (((avg + last) % U32) / 2000) DQ_STATUS_TIMEOUT

/-- The guidance timer as claim C9 states it:
`max(40 s, (rtt_avg + rtt_last) / 2)`, in milliseconds. -/
def guidanceTimeoutClaimC9 (avg last : ℕ) : ℕ :=
  max ((avg + last) / 2) DQ_STATUS_TIMEOUT

/-- C9 — the code contradicts the claim (and its own comments): at
`rtt_avg = rtt_last = 100000` ms the claim arms the timer at
100000 ms, but the code computes `200000 / 2000 = 100` (a value its
comment calls seconds) and MAXes it against the millisecond constant
40000, arming the timer at 40000 ms. -/
theorem guidanceTimeout_ne_claimC9 :
    guidanceTimeout 100000 100000 = 40000 ∧
    guidanceTimeoutClaimC9 100000 100000 = 100000 ∧
    guidanceTimeout 100000 100000 ≠ guidanceTimeoutClaimC9 100000 100000 := by
  decide

/-! ## Guidance handling (`dq_terminate`, `dq_got_query_status`) -/

/-- `dq_terminate` (lines 1111-1144): put the query in lingering mode;
the expiration event is (re)armed at 1 ms for a user-cancelled query
and `DQ_LINGER_TIMEOUT` otherwise, `DQ_F_WAITING` is cleared and
`DQ_F_LINGER` set. -/
def dq_terminate (dq : Dquery) : Dquery :=
  let delay := if dq.fUsrCancelled = true then 1 else DQ_LINGER_TIMEOUT
  { dq with expireEv := some delay, fWaiting := false, fLinger := true }

/-- What `dq_got_query_status` does after updating the record: nothing
further, termination (lingering entered), or resumption of the
iteration via `dq_send_next`. -/
inductive GotStatusAction where
  | noAction : GotStatusAction
  | terminated : GotStatusAction
  | resumeSendNext : GotStatusAction
deriving DecidableEq

/-- `dq_got_query_status` (lines 2019-2106), given the record found by
the MUID lookups with the source-node check passed: record `kept`, set
`DQ_F_GOT_GUIDANCE`, snapshot `last_status`, reset `new_results`;
unsolicited guidance turns leaf-guidance on; the sentinel
`kept = 0xFFFF` sets `DQ_F_USR_CANCELLED` and, unless the query is
already lingering, cancels the results event and terminates;
otherwise a pending wait for guidance is resolved by cancelling the
status timeout and re-entering `dq_send_next`. -/
def dq_got_query_status (dq : Dquery) (kept : ℕ) : Dquery × GotStatusAction :=
  let dq1 := { dq with keptResults := kept, fGotGuidance := true,
                       lastStatus := dq.upSent, newResults := 0 }
  let dq2 :=
    if dq.fWaiting = false ∧ dq.fLeafGuided = false then
      { dq1 with fLeafGuided := true }
    else dq1
  if kept = 65535 then
    let dq3 := { dq2 with fUsrCancelled := true }
    if dq.fLinger = false then
      (dq_terminate { dq3 with resultsEv := none }, .terminated)
    else (dq3, .noAction)
  else if dq.fWaiting = true then
    ({ dq2 with resultsEv := none, fWaiting := false }, .resumeSendNext)
  else (dq2, .noAction)

lemma dq_count_results_cancelled (dq : Dquery) (hc : dq.fUsrCancelled = true)
    (c : ℕ) (sf s2 oob : Bool) :
    (dq_count_results dq c sf s2 oob).2 = false := by
  unfold dq_count_results
  by_cases hf : oob = false ∧
      ((sf = true ∧ dq.qfFirewalled = true ∧ dq.qfFw2fw = false) ∨
        (sf = true ∧ s2 = false ∧ dq.qfFirewalled = true))
  · rw [if_pos hf]
  · rw [if_neg hf]
    by_cases hlg : dq.fLinger = true
    · simp [hlg, hc]
    · by_cases ho : oob = true <;> simp [hlg, ho, hc]

/-- C10 — confirmed.  Delivering the stop sentinel `kept = 0xFFFF` to a
query already lingering sets the user-cancelled flag, records
`kept_results = 0xFFFF`, sets got-guidance, snapshots `last_status`,
resets `new_results`, but touches neither timer (the results event and
the expiration event, hence the lingering deadline, are unchanged) and
triggers no further action; afterwards every hit is reported as drop
(`dq_count_results` returns `false`). -/
theorem dq_got_query_status_linger_stop (dq : Dquery) (hl : dq.fLinger = true) :
    (dq_got_query_status dq 65535).1.fUsrCancelled = true ∧
    (dq_got_query_status dq 65535).1.keptResults = 65535 ∧
    (dq_got_query_status dq 65535).1.fGotGuidance = true ∧
    (dq_got_query_status dq 65535).1.lastStatus = dq.upSent ∧
    (dq_got_query_status dq 65535).1.newResults = 0 ∧
    (dq_got_query_status dq 65535).1.resultsEv = dq.resultsEv ∧
    (dq_got_query_status dq 65535).1.expireEv = dq.expireEv ∧
    (dq_got_query_status dq 65535).2 = .noAction ∧
    (∀ (c : ℕ) (sf s2 : Bool),
      (dq_count_results (dq_got_query_status dq 65535).1 c sf s2 false).2
        = false) := by
  have hnl : ¬ (dq.fLinger = false) := by simp [hl]
  unfold dq_got_query_status
  rw [if_pos rfl, if_neg hnl]
  by_cases hw : dq.fWaiting = false ∧ dq.fLeafGuided = false
  · rw [if_pos hw]
    exact ⟨rfl, rfl, rfl, rfl, rfl, rfl, rfl, rfl,
      fun c sf s2 => dq_count_results_cancelled _ rfl c sf s2 false⟩
  · rw [if_neg hw]
    exact ⟨rfl, rfl, rfl, rfl, rfl, rfl, rfl, rfl,
      fun c sf s2 => dq_count_results_cancelled _ rfl c sf s2 false⟩

/-- Concrete lingering query for the C10 witness. -/
def dqC10 : Dquery :=
  { dqC1 with fLinger := true, expireEv := some 180000, upSent := 4 }

/-- Witness for `dq_got_query_status_linger_stop` at `dqC10`. -/
theorem dq_got_query_status_linger_stop_witness :
    (dq_got_query_status dqC10 65535).1.fUsrCancelled = true ∧
    (dq_got_query_status dqC10 65535).1.expireEv = dqC10.expireEv ∧
    (dq_count_results (dq_got_query_status dqC10 65535).1 2 false false
      false).2 = false :=
  ⟨(dq_got_query_status_linger_stop dqC10 (by decide)).1,
   (dq_got_query_status_linger_stop dqC10 (by decide)).2.2.2.2.2.2.1,
   (dq_got_query_status_linger_stop dqC10 (by decide)).2.2.2.2.2.2.2.2
     2 false false⟩

end DynQuery
